import Mathlib

/-!
Verification of the Time Trap Chess core (game state, danger-zone tracker,
coordinate mapper, bot move selection) against its design specification.

The development shallowly embeds the TypeScript sources:
  * `src/lib/ts/models/Game.ts` (game state, danger zones, coordinate mapper),
  * `src/lib/ts/services/bot/logic/BotService.ts` (bot move selection).

The external rules provider (the chess.js library, not part of this
repository) is modelled from the specification's description of its
interface: board snapshots, legal move generation, check/checkmate/draw
detection, move application, and turn tracking.  Castling, en passant and
the 50-move/threefold draw conditions are omitted from the model; none of
the verified properties depend on them.

JavaScript quirks that the claims touch (NaN from `parseInt`, `-1` from
`Array.indexOf`, array aliasing of the danger-zone list) are modelled
explicitly: NaN as `Option.none`, and array identity via a small heap of
array cells for the frame property of `getDangerZones`.
-/

namespace TCC

/-- Piece colors, chess.js `'w'` / `'b'`. -/
inductive PColor where
  | white
  | black
deriving DecidableEq, Repr

/-- The opposite color (`color === 'w' ? 'b' : 'w'`). -/
def PColor.other : PColor → PColor
  | .white => .black
  | .black => .white

/-- Piece types, chess.js `'p' 'n' 'b' 'r' 'q' 'k'`. -/
inductive PType where
  | pawn
  | knight
  | bishop
  | rook
  | queen
  | king
deriving DecidableEq, Repr

/-- A piece as chess.js reports it: `{ type, color }`. -/
structure CPiece where
  ptype : PType
  pcolor : PColor
deriving DecidableEq, Repr

/-! ## Coordinate mapper (`Game.squareToCoords` / `Game.coordsToSquare`) -/

/-- The file-letter list `['a','b','c','d','e','f','g','h']` used by
`Game.squareToCoords` and `Game.coordsToSquare`. -/
def filesList : List Char := ['a', 'b', 'c', 'd', 'e', 'f', 'g', 'h']

/-- The object `{ i, j }` returned by `Game.squareToCoords`.  The fields are
JavaScript numbers: `i` is `8 - parseInt(square[1])`, which is NaN (modelled
as `none`) when the second character is missing or not a digit; `j` is an
`Array.indexOf` result, hence `-1` when the first character is not a file
letter. -/
structure CellPosJS where
  i : Option Int
  j : Int
deriving DecidableEq, Repr

/-- JavaScript `parseInt` applied to `square[1]`: a single character (or
`undefined`, modelled as `none`, when the string is shorter).  A decimal
digit parses to its value; anything else gives NaN (`none`). -/
def jsParseIntChar : Option Char → Option Int
  | some c => if c.isDigit then some ((c.toNat : Int) - 48) else none
  | none => none

/-- JavaScript `Array.prototype.indexOf`: index of the first occurrence,
`-1` when absent. -/
def jsIndexOf (l : List Char) (c : Char) : Int :=
  match l with
  | [] => -1
  | x :: xs =>
    if x = c then 0
    else
      let r := jsIndexOf xs c
      if r = -1 then -1 else r + 1

/-- `Game.squareToCoords(square)`: `{ i: 8 - parseInt(square[1]),
j: files.indexOf(square[0]) }`.  No validation is performed in the source;
the function is total. -/
def squareToCoords (s : String) : CellPosJS :=
  { i := (jsParseIntChar (s.data.get? 1)).map (fun rank => 8 - rank)
    j :=
      match s.data.get? 0 with
      | some c => jsIndexOf filesList c
      | none => -1 }

/-- `Game.coordsToSquare(i, j)`: the template string `` `${files[j]}${8 - i}` ``.
For `j ≥ 8` JavaScript interpolates the `undefined` array read as the text
`"undefined"`. -/
def coordsToSquare (i j : Nat) : String :=
  (match filesList.get? j with
   | some c => String.mk [c]
   | none => "undefined") ++ toString (8 - (i : Int))

/-! ## Rules provider (chess.js) model

Modelled from the spec: the external Rules Provider (`chess.js`), which is
not part of this repository, "supplies board state, legal move generation,
check/checkmate/draw detection, move application, and position loading".
Squares are addressed here by the grid coordinates `(i, j)` of `Game.ts`
(row `i` = rank `8 - i`, column `j` = file `'a' + j`).  Castling,
en passant, underpromotion and the 50-move/threefold draw conditions are
omitted from the model. -/

/-- A square as a `(row, column)` pair of grid coordinates. -/
abbrev Sq := Nat × Nat

/-- A board: 64 optional pieces in row-major order, index `i * 8 + j`. -/
abbrev Board := List (Option CPiece)

/-- The 64 squares in row-major order. -/
def allSquares : List Sq := (List.range 64).map (fun n => (n / 8, n % 8))

/-- Occupant of square `(i, j)`; `none` off the board. -/
def boardGet (b : Board) (i j : Nat) : Option CPiece :=
  if i < 8 ∧ j < 8 then b.getD (i * 8 + j) none else none

/-- Replace the occupant of square `(i, j)`. -/
def boardSet (b : Board) (i j : Nat) (p : Option CPiece) : Board :=
  b.set (i * 8 + j) p

/-- Is an integer coordinate pair on the board? -/
def onBoard (p : Int × Int) : Bool :=
  0 ≤ p.1 && p.1 < 8 && 0 ≤ p.2 && p.2 < 8

/-- Truncate an on-board integer pair to grid coordinates. -/
def sqOf (p : Int × Int) : Sq := (p.1.toNat, p.2.toNat)

/-- Knight jump offsets. -/
def knightOffsets : List (Int × Int) :=
  [(1, 2), (2, 1), (2, -1), (1, -2), (-1, -2), (-2, -1), (-2, 1), (-1, 2)]

/-- King step offsets. -/
def kingOffsets : List (Int × Int) :=
  [(1, 1), (1, 0), (1, -1), (0, 1), (0, -1), (-1, 1), (-1, 0), (-1, -1)]

/-- Rook ray directions. -/
def rookDirs : List (Int × Int) := [(1, 0), (-1, 0), (0, 1), (0, -1)]

/-- Bishop ray directions. -/
def bishopDirs : List (Int × Int) := [(1, 1), (1, -1), (-1, 1), (-1, -1)]

/-- Walk a sliding ray for a piece of color `c`: empty squares are
destinations, the first enemy piece is a capture destination, a friendly
piece blocks.  `fuel` bounds the walk (7 steps suffice on an 8×8 board). -/
def rayWalk (b : Board) (c : PColor) (pos d : Int × Int) : Nat → List Sq
  | 0 => []
  | fuel + 1 =>
    let nxt : Int × Int := (pos.1 + d.1, pos.2 + d.2)
    if onBoard nxt then
      match boardGet b (sqOf nxt).1 (sqOf nxt).2 with
      | none => sqOf nxt :: rayWalk b c nxt d fuel
      | some p => if p.pcolor = c then [] else [sqOf nxt]
    else []

/-- Pawn forward direction in grid rows (white moves toward row 0). -/
def pawnDir : PColor → Int
  | .white => -1
  | .black => 1

/-- The row a pawn starts on (double-step row). -/
def pawnStartRow : PColor → Nat
  | .white => 6
  | .black => 1

/-- The row a pawn promotes on. -/
def promoRow : PColor → Nat
  | .white => 0
  | .black => 7

/-- Destination squares of a pawn of color `c` at `(i, j)`: single and
double pushes onto empty squares, diagonal captures of enemy pieces.
En passant is omitted. -/
def pawnDests (b : Board) (c : PColor) (i j : Nat) : List Sq :=
  let d := pawnDir c
  let fwd1 : Int × Int := ((i : Int) + d, (j : Int))
  let fwd2 : Int × Int := ((i : Int) + 2 * d, (j : Int))
  let pushes :=
    if onBoard fwd1 && (boardGet b (sqOf fwd1).1 (sqOf fwd1).2).isNone then
      sqOf fwd1 ::
        (if i = pawnStartRow c && onBoard fwd2 &&
            (boardGet b (sqOf fwd2).1 (sqOf fwd2).2).isNone then
          [sqOf fwd2]
        else [])
    else []
  let caps :=
    [((i : Int) + d, (j : Int) - 1), ((i : Int) + d, (j : Int) + 1)].filterMap
      fun p =>
        if onBoard p then
          match boardGet b (sqOf p).1 (sqOf p).2 with
          | some q => if q.pcolor = c then none else some (sqOf p)
          | none => none
        else none
  pushes ++ caps

/-- Leaper destinations (knight and king): offset squares on the board and
not occupied by a friendly piece. -/
def leaperDests (b : Board) (c : PColor) (i j : Nat) (offs : List (Int × Int)) :
    List Sq :=
  offs.filterMap fun d =>
    let t : Int × Int := ((i : Int) + d.1, (j : Int) + d.2)
    if onBoard t then
      match boardGet b (sqOf t).1 (sqOf t).2 with
      | some q => if q.pcolor = c then none else some (sqOf t)
      | none => some (sqOf t)
    else none

/-- Pseudo-legal destination squares of piece `p` at `(i, j)` (before the
own-king-safety filter). -/
def pseudoDests (b : Board) (p : CPiece) (i j : Nat) : List Sq :=
  match p.ptype with
  | .pawn => pawnDests b p.pcolor i j
  | .knight => leaperDests b p.pcolor i j knightOffsets
  | .king => leaperDests b p.pcolor i j kingOffsets
  | .rook => rookDirs.flatMap fun d => rayWalk b p.pcolor ((i : Int), (j : Int)) d 8
  | .bishop => bishopDirs.flatMap fun d => rayWalk b p.pcolor ((i : Int), (j : Int)) d 8
  | .queen =>
    (rookDirs ++ bishopDirs).flatMap fun d => rayWalk b p.pcolor ((i : Int), (j : Int)) d 8

/-- Is square `t` attacked by a piece of color `c`?  (Evaluated only at
squares holding a piece of the other color, where pseudo-destinations
coincide with attacked squares.) -/
def isAttacked (b : Board) (c : PColor) (t : Sq) : Bool :=
  allSquares.any fun s =>
    match boardGet b s.1 s.2 with
    | some q => q.pcolor = c && (pseudoDests b q s.1 s.2).any (fun u => u = t)
    | none => false

/-- Locate the king of color `c`. -/
def findKing (b : Board) (c : PColor) : Option Sq :=
  allSquares.find? fun s => boardGet b s.1 s.2 = some ⟨.king, c⟩

/-- Is the king of color `c` in check? -/
def inCheck (b : Board) (c : PColor) : Bool :=
  match findKing b c with
  | some t => isAttacked b c.other t
  | none => false

/-- Apply a move of piece `pt` of color `c` from `(fi, fj)` to `(ti, tj)` on
the board, auto-promoting a pawn reaching the last row to a queen (the
wrapper always passes promotion `'q'`). -/
def applyRaw (b : Board) (c : PColor) (pt : PType) (fi fj ti tj : Nat) : Board :=
  let placed : CPiece :=
    if pt = .pawn ∧ ti = promoRow c then ⟨.queen, c⟩ else ⟨pt, c⟩
  boardSet (boardSet b fi fj none) ti tj (some placed)

/-- The rules provider's full state: board and side to move. -/
structure ChessState where
  board : Board
  turn : PColor
deriving DecidableEq, Repr

/-- Legal destination squares of the piece at `(i, j)`: empty when the
square is empty or holds a piece of the side not to move (as
`chess.moves({square})` returns `[]` there); otherwise the pseudo-legal
destinations that do not leave the mover's own king in check. -/
def legalDestsFrom (st : ChessState) (i j : Nat) : List Sq :=
  match boardGet st.board i j with
  | none => []
  | some p =>
    if p.pcolor = st.turn then
      (pseudoDests st.board p i j).filter fun t =>
        !(inCheck (applyRaw st.board p.pcolor p.ptype i j t.1 t.2) p.pcolor)
    else []

/-- A verbose move record as the rules provider reports it: squares, piece,
color, captured piece type (if any), and whether the move promotes. -/
structure EMove where
  fromSq : Sq
  toSq : Sq
  piece : PType
  color : PColor
  captured : Option PType
  promo : Bool
deriving DecidableEq, Repr

/-- Build the verbose record for the move of `p` from `(i, j)` to `t`. -/
def mkEMove (st : ChessState) (i j : Nat) (p : CPiece) (t : Sq) : EMove :=
  { fromSq := (i, j)
    toSq := t
    piece := p.ptype
    color := p.pcolor
    captured := (boardGet st.board t.1 t.2).map (·.ptype)
    promo := decide (p.ptype = .pawn ∧ t.1 = promoRow p.pcolor) }

/-- All legal moves of the side to move. -/
def legalMovesAll (st : ChessState) : List EMove :=
  allSquares.flatMap fun s =>
    match boardGet st.board s.1 s.2 with
    | some p =>
      if p.pcolor = st.turn then
        (legalDestsFrom st s.1 s.2).map (mkEMove st s.1 s.2 p)
      else []
    | none => []

/-- Apply a verbose move: update the board and flip the side to move. -/
def applyEMove (st : ChessState) (m : EMove) : ChessState :=
  { board := applyRaw st.board m.color m.piece m.fromSq.1 m.fromSq.2 m.toSq.1 m.toSq.2
    turn := st.turn.other }

/-- `chess.move({from, to, promotion: 'q'})` by coordinates: `some` of the
move record and the next state when legal, `none` otherwise (the wrapper
catches the throw on an illegal move). -/
def chessMoveCoords (st : ChessState) (fi fj ti tj : Nat) :
    Option (EMove × ChessState) :=
  match boardGet st.board fi fj with
  | none => none
  | some p =>
    if (legalDestsFrom st fi fj).any (fun t => t = (ti, tj)) then
      let m := mkEMove st fi fj p (ti, tj)
      some (m, applyEMove st m)
    else none

/-- `chess.isCheckmate()`: in check with no legal moves. -/
def isCheckmate (st : ChessState) : Bool :=
  inCheck st.board st.turn && (legalMovesAll st).isEmpty

/-- `chess.isStalemate()`: not in check with no legal moves. -/
def isStalemate (st : ChessState) : Bool :=
  !(inCheck st.board st.turn) && (legalMovesAll st).isEmpty

/-- Insufficient material: no pawn, rook or queen, and at most one minor
piece on the board (a simplification of the provider's rule; bishop-color
analysis is omitted). -/
def insufficientMaterial (st : ChessState) : Bool :=
  let pieces := st.board.filterMap id
  pieces.all (fun p => p.ptype ≠ .pawn ∧ p.ptype ≠ .rook ∧ p.ptype ≠ .queen) &&
    (pieces.filter (fun p => p.ptype ≠ .king)).length ≤ 1

/-- `chess.isDraw()`: stalemate or insufficient material (50-move and
threefold repetition are omitted from the model). -/
def isDraw (st : ChessState) : Bool :=
  isStalemate st || insufficientMaterial st

/-- A back rank of color `c`. -/
def backRank (c : PColor) : List (Option CPiece) :=
  [PType.rook, .knight, .bishop, .queen, .king, .bishop, .knight, .rook].map
    fun t => some ⟨t, c⟩

/-- A rank of pawns of color `c`. -/
def pawnRank (c : PColor) : List (Option CPiece) :=
  List.replicate 8 (some ⟨.pawn, c⟩)

/-- An empty rank. -/
def emptyRank : List (Option CPiece) := List.replicate 8 none

/-- The standard starting board (row 0 = rank 8 = black's back rank). -/
def initialBoard : Board :=
  backRank .black ++ pawnRank .black ++ emptyRank ++ emptyRank ++
    emptyRank ++ emptyRank ++ pawnRank .white ++ backRank .white

/-- The state after `chess.reset()` / `new Chess()`: starting position,
white to move. -/
def initialChess : ChessState := ⟨initialBoard, .white⟩

/-! ## Game state (`Game.ts`) -/

/-- A `CellPosition` value `{ i, j }` as used by the danger-zone machinery
(grid coordinates). -/
structure CellPos where
  i : Nat
  j : Nat
deriving DecidableEq, Repr

/-- A `DangerZone` record: `{ position, timestamp, active }`. -/
structure DangerZone where
  position : CellPos
  timestamp : Nat
  active : Bool
deriving DecidableEq, Repr

/-- Game mode from `GameSettings`. -/
inductive GameMode where
  | singleplayer
  | multiplayer
deriving DecidableEq, Repr

/-- Bot difficulty levels. -/
inductive BotLevel where
  | facil
  | medio
  | dificil
deriving DecidableEq, Repr

/-- The `GameSettings` object; optional fields may be absent (`undefined`). -/
structure GameSettings where
  mode : GameMode
  playerColor : Option PColor
  botLevel : Option BotLevel
  dangerZonesEnabled : Option Bool
deriving DecidableEq, Repr

/-- `Game.pieceToId`: 1–6 for white king..pawn, 7–12 for black. -/
def pieceToId (p : CPiece) : Nat :=
  let t :=
    match p.ptype with
    | .king => 1
    | .queen => 2
    | .rook => 3
    | .bishop => 4
    | .knight => 5
    | .pawn => 6
  match p.pcolor with
  | .white => t
  | .black => t + 6

/-- The `PieceData` object built by `Game.getPiece`: the source object
literal is `{ id, color }`, so the `type` property (declared in the missing
`ChessTypes.ts` and read by `BotService` and `Game.isKingInDanger`) is
absent at runtime; it is modelled as an `Option PType` that `getPiece`
leaves at `none`. -/
structure PieceData where
  id : Nat
  pcolor : PColor
  ptype : Option PType
deriving DecidableEq, Repr

/-- The `Game` instance state.  Timers are modelled as an association list
from cell key (`` `${i},${j}` ``, injectively represented by the cell
itself) to the pending `setTimeout` id; an entry is present exactly while
that expiry task is pending, and removing the entry models `clearTimeout`.
`callbackCalls` logs the invocations of the registered `kingCaughtCallback`
(the argument of each call), and `hasKingCaughtCallback` models whether
`setKingCaughtCallback` has been called. -/
structure Game where
  chess : ChessState
  redoStack : List EMove
  dangerZones : List DangerZone
  dangerZoneTimers : List (CellPos × Nat)
  nextTimerId : Nat
  lastDangerSide : PColor
  dangerZoneQueue : List CellPos
  winner : Option PColor
  hasKingCaughtCallback : Bool
  callbackCalls : List PColor
  humanColor : Option PColor
  settings : Option GameSettings
deriving DecidableEq, Repr

namespace Game

/-- `Game.areDangerZonesEnabled`: `this._settings?.dangerZonesEnabled ?? true`. -/
def areDangerZonesEnabled (g : Game) : Bool :=
  match g.settings with
  | some s => s.dangerZonesEnabled.getD true
  | none => true

/-- `Game.isHumanPlayer`: `this._humanColor === color`. -/
def isHumanPlayer (g : Game) (c : PColor) : Bool :=
  g.humanColor = some c

/-- `Game.getPiece`: occupant of `(i, j)` as a `PieceData` — note the
source builds `{ id, color }` only, so `ptype` is `none`. -/
def getPiece (g : Game) (i j : Nat) : Option PieceData :=
  (boardGet g.chess.board i j).map fun p =>
    { id := pieceToId p, pcolor := p.pcolor, ptype := none }

/-- `Game.getPieceTypeAt`: the chess.js piece type at `(i, j)`. -/
def getPieceTypeAt (g : Game) (i j : Nat) : Option PType :=
  (boardGet g.chess.board i j).map (·.ptype)

/-- `Game.isBoardValid(fen)`: the position has at least one king of each
color (`pieces.some(...)` per color). -/
def isBoardValid (b : Board) : Bool :=
  b.any (fun p => p = some ⟨.king, .white⟩) &&
    b.any (fun p => p = some ⟨.king, .black⟩)

/-- `Game.removePieceAt`: refuse when the cell is empty or holds a king;
otherwise remove the occupant, but only if the resulting board still passes
`isBoardValid` (else leave the board unchanged and report `false`). -/
def removePieceAt (g : Game) (pos : CellPos) : Bool × Game :=
  match boardGet g.chess.board pos.i pos.j with
  | none => (false, g)
  | some p =>
    if p.ptype = .king then (false, g)
    else
      let tempBoard := boardSet g.chess.board pos.i pos.j none
      if isBoardValid tempBoard then
        (true, { g with chess := { g.chess with board := tempBoard } })
      else (false, g)

/-- `Game.removeDangerZone`: `clearTimeout` the pending timer, drop the
timer entry and the zone record for the cell key — and then (line 117 of
`Game.ts`) call `removePieceAt(position)` on the cell. -/
def removeDangerZone (g : Game) (pos : CellPos) : Game :=
  let g1 :=
    { g with
      dangerZones := g.dangerZones.filter fun z => !(z.position = pos)
      dangerZoneTimers := g.dangerZoneTimers.filter fun e => !(e.1 = pos) }
  (removePieceAt g1 pos).2

/-- `Game.addDangerZone`: no-op when danger zones are disabled or a zone
already exists at the cell; otherwise push a zone record stamped `now` and
register the 15000 ms expiry timer under the cell key. -/
def addDangerZone (g : Game) (pos : CellPos) (now : Nat) : Game :=
  if !(areDangerZonesEnabled g) then g
  else if g.dangerZones.any (fun z => z.position = pos) then g
  else
    { g with
      dangerZones := g.dangerZones ++ [⟨pos, now, true⟩]
      dangerZoneTimers :=
        if g.dangerZoneTimers.any (fun e => e.1 = pos) then
          g.dangerZoneTimers.map fun e =>
            if e.1 = pos then (pos, g.nextTimerId) else e
        else g.dangerZoneTimers ++ [(pos, g.nextTimerId)]
      nextTimerId := g.nextTimerId + 1 }

/-- The body of the 15000 ms expiry task registered by `Game.addDangerZone`
(lines 52–71 of `Game.ts`): re-read the occupant; a king of the
human-controlled color declares the opposite color winner and fires the
callback; any other occupant is removed via `removePieceAt`; finally
`removeDangerZone` runs in every case. -/
def dangerZoneTimerFire (g : Game) (pos : CellPos) : Game :=
  let currentPiece := getPiece g pos.i pos.j
  let pieceType := getPieceTypeAt g pos.i pos.j
  let g' :=
    match pieceType, currentPiece with
    | some .king, some pd =>
      if isHumanPlayer g pd.pcolor then
        let w := pd.pcolor.other
        { g with
          winner := some w
          callbackCalls :=
            if g.hasKingCaughtCallback then g.callbackCalls ++ [w]
            else g.callbackCalls }
      else g
    | some .king, none => g
    | some _, some _ => (removePieceAt g pos).2
    | some _, none => g
    | none, some _ => (removePieceAt g pos).2
    | none, none => g
  removeDangerZone g' pos

/-- `Game.clearDangerZones`: cancel every pending timer, empty the timer
map, the zone list and the queue. -/
def clearDangerZones (g : Game) : Game :=
  { g with dangerZoneTimers := [], dangerZones := [], dangerZoneQueue := [] }

/-- `Game.isSquareDangerous`: some zone sits at `(i, j)`. -/
def isSquareDangerous (g : Game) (i j : Nat) : Bool :=
  g.dangerZones.any fun z => z.position.i = i ∧ z.position.j = j

/-- `Game.getValidMoves`: legal destination cells of the piece at `(i, j)`
(the source round-trips each destination through `coordsToSquare` /
`squareToCoords`, which is the identity on board coordinates — the
round-trip law below). -/
def getValidMoves (g : Game) (i j : Nat) : List Sq :=
  legalDestsFrom g.chess i j

/-- `Game.isSquareDefended`: some piece of `color` has a legal move landing
on `(i, j)`. -/
def isSquareDefended (g : Game) (i j : Nat) (color : PColor) : Bool :=
  allSquares.any fun s =>
    match getPiece g s.1 s.2 with
    | some pd => pd.pcolor = color && (getValidMoves g s.1 s.2).any fun mv =>
        mv.1 = i ∧ mv.2 = j
    | none => false

/-- `Game.movePiece`: attempt the move through the rules provider with
promotion `'q'`; `true` and the updated state on success, `false` and the
unchanged state when the provider rejects it (the source catches the
throw). -/
def movePiece (g : Game) (xfrom xto : CellPos) : Bool × Game :=
  match chessMoveCoords g.chess xfrom.i xfrom.j xto.i xto.j with
  | some (_, st') => (true, { g with chess := st' })
  | none => (false, g)

/-- `Game.getCurrentTurn`. -/
def getCurrentTurn (g : Game) : PColor :=
  g.chess.turn

/-- `Game.reset`: clear danger zones (cancelling pending timers), reset the
rules provider to the starting position, empty the redo stack.  The source
does not touch `_winner`. -/
def reset (g : Game) : Game :=
  let g1 := clearDangerZones g
  { g1 with chess := initialChess, redoStack := [] }

/-- The `GameResult` union `'Brancas' | 'Pretas' | 'Empate' | false`. -/
inductive GameResult where
  | brancas
  | pretas
  | empate
  | noRes
deriving DecidableEq, Repr

/-- `Game.checkGameResult`: a recorded winner wins outright; else checkmate
(side to move loses) or draw; else no result (`false`). -/
def checkGameResult (g : Game) : GameResult :=
  match g.winner with
  | some .white => .brancas
  | some .black => .pretas
  | none =>
    if isCheckmate g.chess then
      if g.chess.turn = .white then .pretas else .brancas
    else if isDraw g.chess then .empate
    else .noRes

end Game

/-! ## Aliasing model for `Game.getDangerZones`

`getDangerZones` returns `[...this._dangerZones]`.  To state the frame
property about mutating the returned array, JavaScript array identity is
modelled by a heap of array cells: a reference is an index into the heap,
the game's internal `_dangerZones` array lives at one reference, and the
spread `[...]` allocates a fresh cell holding the same zone records. -/

/-- A heap of danger-zone arrays; a reference is an index into `cells`. -/
structure ZoneHeap where
  cells : List (List DangerZone)
deriving DecidableEq, Repr

/-- Read the array at reference `r`. -/
def ZoneHeap.readRef (h : ZoneHeap) (r : Nat) : List DangerZone :=
  h.cells.getD r []

/-- Overwrite the array at reference `r` (models in-place mutation of that
array: pushes, splices, arbitrary rewrites). -/
def ZoneHeap.writeRef (h : ZoneHeap) (r : Nat) (v : List DangerZone) : ZoneHeap :=
  ⟨h.cells.set r v⟩

/-- `Game.getDangerZones` over the heap: allocate a fresh array with the
spread of the internal one (at `zonesRef`) and return its reference. -/
def getDangerZonesAlloc (h : ZoneHeap) (zonesRef : Nat) : ZoneHeap × Nat :=
  (⟨h.cells ++ [h.readRef zonesRef]⟩, h.cells.length)

/-- `Game.isSquareDangerous` over the heap: reads the internal array. -/
def isSquareDangerousRef (h : ZoneHeap) (zonesRef : Nat) (i j : Nat) : Bool :=
  (h.readRef zonesRef).any fun z => z.position.i = i ∧ z.position.j = j

/-! ## Bot move selection (`BotService.ts`)

The embedding follows the source at runtime semantics: move records built
by `BotService.getValidMoves` read `piece.type` from `Game.getPiece`
results, whose `type` property is absent, so `pieceT`/`captured` carry the
`undefined`/`null` the source computes.  Where the source compares
JavaScript numbers that can be `undefined`/NaN, the embedding uses
`Option Int` with NaN-propagating helpers; a comparison against NaN is
`false`, and a sort comparator evaluating to NaN is treated as `0`.
`Math.random()` draws are modelled by explicit parameters: a `rand : Nat`
index (reduced modulo the list length, covering exactly the values
`Math.floor(Math.random() * length)` can take) and a `shuffle` function for
the minimax move ordering. -/

namespace BotService

/-- The `pieceValues` table (centipawns). -/
def pieceValues : PType → Int
  | .pawn => 100
  | .knight => 280
  | .bishop => 320
  | .rook => 479
  | .queen => 929
  | .king => 60000

/-- The move records `BotService.getValidMoves` builds: `{from, to, piece,
captured}` (plus the `promotion` the hard level adds).  `from`/`to` are
stored as grid coordinates; the source's `coordsToSquare`/`squareToCoords`
string round-trip is the identity on them (round-trip law). -/
structure BotMove where
  fromSq : Sq
  toSq : Sq
  pieceT : Option PType
  captured : Option PType
  promotion : Option PType
deriving DecidableEq, Repr

/-- `BotService.getCapturedPiece`: `piece?.color !== this.cor ?
piece?.type || null : null` — with `piece?.type` absent at runtime. -/
def getCapturedPiece (g : Game) (cor : PColor) (i j : Nat) : Option PType :=
  match Game.getPiece g i j with
  | some pd => if pd.pcolor ≠ cor then pd.ptype else none
  | none => none

/-- `BotService.getValidMoves`: for each own-colored piece (row-major scan)
and each of its legal destinations, the record `{from, to, piece:
piece.type, captured: getCapturedPiece(...)}`. -/
def botGetValidMoves (g : Game) (cor : PColor) : List BotMove :=
  allSquares.flatMap fun s =>
    match Game.getPiece g s.1 s.2 with
    | some pd =>
      if pd.pcolor = cor then
        (Game.getValidMoves g s.1 s.2).map fun t =>
          { fromSq := s
            toSq := t
            pieceT := pd.ptype
            captured := getCapturedPiece g cor t.1 t.2
            promotion := none }
      else []
    | none => []

/-- `BotService.isCheckmateMove`: replay the move with promotion `'q'` on a
copy of the position and ask the provider for checkmate. -/
def isCheckmateMove (g : Game) (m : BotMove) : Bool :=
  match chessMoveCoords g.chess m.fromSq.1 m.fromSq.2 m.toSq.1 m.toSq.2 with
  | some (_, st') => isCheckmate st'
  | none => false

/-- `BotService.moveGivesCheck`: replay the move and test whether its SAN
contains `'+'` (the provider writes `'+'` for check and `'#'` for mate). -/
def moveGivesCheck (g : Game) (m : BotMove) : Bool :=
  match chessMoveCoords g.chess m.fromSq.1 m.fromSq.2 m.toSq.1 m.toSq.2 with
  | some (_, st') => inCheck st'.board st'.turn && !(isCheckmate st')
  | none => false

/-- `BotService.findCheckmateMove`: first generated move that mates. -/
def findCheckmateMove (g : Game) (cor : PColor) : Option BotMove :=
  (botGetValidMoves g cor).find? fun m => isCheckmateMove g m

/-- Stable insertion into a list sorted ascending by a JavaScript
comparator (`cmp y x ≤ 0` keeps `y` before `x`). -/
def jsInsert (cmp : α → α → Int) (x : α) : List α → List α
  | [] => [x]
  | y :: ys => if cmp y x ≤ 0 then y :: jsInsert cmp x ys else x :: y :: ys

/-- `Array.prototype.sort(cmp)` as a stable ascending sort (JavaScript's
sort is stable; a comparator evaluating to NaN is treated as `0` by the
callers below). -/
def jsSort (cmp : α → α → Int) (l : List α) : List α :=
  l.foldl (fun acc x => jsInsert cmp x acc) []

/-- `moves[Math.floor(Math.random() * moves.length)]`: `undefined` (`none`)
on an empty list, else the entry at the random index. -/
def jsPick (l : List α) (rand : Nat) : Option α :=
  if l.isEmpty then none else l.get? (rand % l.length)

/-- The captured-piece value a comparator reads, `0` when the guard
`pieceKeys.includes(...)` fails (absent/`null` captured). -/
def capturedValueD (m : BotMove) : Int :=
  (m.captured.map pieceValues).getD 0

/-- `BotService.countPieces`. -/
def countPieces (g : Game) : Nat :=
  (allSquares.filter fun s => (Game.getPiece g s.1 s.2).isSome).length

/-- `BotService.isEndGame`: at most 8 pieces. -/
def isEndGame (g : Game) : Bool := countPieces g ≤ 8

/-- `BotService.isMidGame`: between 9 and 16 pieces. -/
def isMidGame (g : Game) : Bool := countPieces g ≤ 16 && countPieces g > 8

/-- `BotService.isEarlyGame`: more than 20 pieces. -/
def isEarlyGame (g : Game) : Bool := countPieces g > 20

/-- `BotService.distanceFromEdge`. -/
def distanceFromEdge (pos : Sq) : Int :=
  min (min (pos.1 : Int) (7 - (pos.1 : Int))) (min (pos.2 : Int) (7 - (pos.2 : Int)))

/-- `BotService.getMoveSafety`: +10 not dangerous, +5 defended, plus edge
distance in the endgame. -/
def getMoveSafety (g : Game) (cor : PColor) (m : BotMove) : Int :=
  (if !(Game.isSquareDangerous g m.toSq.1 m.toSq.2) then 10 else 0) +
    (if Game.isSquareDefended g m.toSq.1 m.toSq.2 cor then 5 else 0) +
    (if isEndGame g then distanceFromEdge m.toSq else 0)

/-- `BotService.findKingPosition`: first own piece whose (runtime-absent)
`type` reads `'k'`. -/
def findKingPosition (g : Game) (cor : PColor) : Option Sq :=
  allSquares.find? fun s =>
    match Game.getPiece g s.1 s.2 with
    | some pd => pd.ptype = some .king && pd.pcolor = cor
    | none => false

/-- `BotService.isKingMove`: the move starts at the king's cell. -/
def isKingMove (m : BotMove) (kingPos : Sq) : Bool :=
  m.fromSq = kingPos

/-- `BotService.isSquareDangerousAfterMove`: the destination is currently
flagged dangerous. -/
def isSquareDangerousAfterMove (g : Game) (m : BotMove) : Bool :=
  Game.isSquareDangerous g m.toSq.1 m.toSq.2

/-- `BotService.sortKingMoves`: in the midgame order by distance from the
edge ascending, otherwise keep the order. -/
def sortKingMoves (g : Game) (moves : List BotMove) : List BotMove :=
  if isMidGame g then
    jsSort (fun a b => distanceFromEdge a.toSq - distanceFromEdge b.toSq) moves
  else moves

/-- `BotService.findAttackers`: opponent pieces with a legal move onto the
cell (legal-move generation returns `[]` for the side not to move). -/
def findAttackers (g : Game) (cor : PColor) (pos : Sq) : List Sq :=
  (allSquares.filter fun s =>
    match Game.getPiece g s.1 s.2 with
    | some pd =>
      pd.pcolor = cor.other &&
        (Game.getValidMoves g s.1 s.2).any fun mv => mv.1 = pos.1 ∧ mv.2 = pos.2
    | none => false)

/-- The loop body of `BotService.getSquaresBetween`: walk from the cell
after `pos1` until hitting exactly `pos2`.  The JavaScript loop does not
terminate for misaligned inputs; the walk is fuelled (32 steps) instead,
which agrees on every aligned input. -/
def squaresBetweenAux (di dj : Int) (p2 : Sq) : Int × Int → Nat → List (Int × Int)
  | _, 0 => []
  | (i, j), fuel + 1 =>
    if i = (p2.1 : Int) ∧ j = (p2.2 : Int) then []
    else (i, j) :: squaresBetweenAux di dj p2 (i + di, j + dj) fuel

/-- `BotService.getSquaresBetween`. -/
def getSquaresBetween (p1 p2 : Sq) : List (Int × Int) :=
  let di := Int.sign ((p2.1 : Int) - (p1.1 : Int))
  let dj := Int.sign ((p2.2 : Int) - (p1.2 : Int))
  if di = 0 ∧ dj = 0 then []
  else squaresBetweenAux di dj p2 ((p1.1 : Int) + di, (p1.2 : Int) + dj) 32

/-- The piece value used to order candidate moves cheapest-first
(`pieceValues[a.piece] - pieceValues[b.piece]`); NaN (absent piece type)
comparator results act as `0`. -/
def pieceCmpVal (a b : BotMove) : Int :=
  match a.pieceT, b.pieceT with
  | some x, some y => pieceValues x - pieceValues y
  | _, _ => 0

/-- `BotService.findBlockMove`: for each square between king and attacker,
the cheapest legal move onto it. -/
def findBlockMove (g : Game) (cor : PColor) (kingPos attacker : Sq) :
    Option BotMove :=
  (getSquaresBetween kingPos attacker).firstM fun sq =>
    ((jsSort pieceCmpVal
        ((botGetValidMoves g cor).filter fun m =>
          (m.toSq.1 : Int) = sq.1 ∧ (m.toSq.2 : Int) = sq.2)).head?)

/-- `BotService.findBlockOrCaptureMove`: per attacker, the cheapest capture
of it; with a single sliding attacker, otherwise a blocking move. -/
def findBlockOrCaptureMove (g : Game) (cor : PColor) (kingPos : Sq) :
    Option BotMove :=
  let attackers := findAttackers g cor kingPos
  attackers.firstM fun attacker =>
    let captureMoves :=
      jsSort pieceCmpVal
        ((botGetValidMoves g cor).filter fun m => m.toSq = attacker)
    match captureMoves.head? with
    | some m => some m
    | none =>
      if attackers.length = 1 then
        let slider : Bool :=
          match Game.getPiece g attacker.1 attacker.2 with
          | some pd =>
            match pd.ptype with
            | some t => t = .queen || t = .rook || t = .bishop
            | none => false
          | none => false
        if slider then findBlockMove g cor kingPos attacker else none
      else none

/-- `BotService.getKingDefenseMove`. -/
def getKingDefenseMove (g : Game) (cor : PColor) : Option BotMove :=
  match findKingPosition g cor with
  | none => none
  | some kingPos =>
    if Game.isSquareDangerous g kingPos.1 kingPos.2 then
      let kingMoves :=
        ((botGetValidMoves g cor).filter fun m => isKingMove m kingPos).filter
          fun m => !(isSquareDangerousAfterMove g m)
      if kingMoves.length > 0 then (sortKingMoves g kingMoves).head?
      else findBlockOrCaptureMove g cor kingPos
    else if isEndGame g then
      (jsSort (fun a b => getMoveSafety g cor b - getMoveSafety g cor a)
        ((botGetValidMoves g cor).filter fun m => isKingMove m kingPos)).head?
    else none

/-- `1.5 ×` value comparisons, exact over the integer centipawn table
(`x ≥ y * 1.5 ⟺ 2x ≥ 3y`); `false` whenever either side is NaN. -/
def geOneAndHalf (a b : Option Int) : Bool :=
  match a, b with
  | some x, some y => 2 * x ≥ 3 * y
  | _, _ => false

/-- Strict `>` against `1.5 ×` a possibly-NaN value. -/
def gtOneAndHalf (a b : Option Int) : Bool :=
  match a, b with
  | some x, some y => 2 * x > 3 * y
  | _, _ => false

/-- `BotService.findSafeCapture`: captures sorted by captured value (+500
above queen value) descending; return the first that captures a queen, or
is a`≥ 1.5 ×` value trade, or lands safe-or-defended. -/
def findSafeCapture (g : Game) (cor : PColor) : Option BotMove :=
  let bonus := fun (m : BotMove) =>
    capturedValueD m + (if capturedValueD m ≥ pieceValues .queen then 500 else 0)
  let moves :=
    jsSort (fun a b => bonus b - bonus a)
      ((botGetValidMoves g cor).filter fun m => m.captured.isSome)
  moves.find? fun m =>
    let isValuableCapture :=
      m.captured.isSome && m.pieceT.isSome &&
        geOneAndHalf (m.captured.map pieceValues) (m.pieceT.map pieceValues)
    (m.captured = some .queen || isValuableCapture) ||
      (!(Game.isSquareDangerous g m.toSq.1 m.toSq.2) ||
        Game.isSquareDefended g m.toSq.1 m.toSq.2 cor)

/-- `BotService.findThreatenedPieces`: own pieces on dangerous cells,
sorted most valuable first (absent piece types count as value 0). -/
def findThreatenedPieces (g : Game) (cor : PColor) :
    List (Sq × PieceData) :=
  jsSort
    (fun a b =>
      (b.2.ptype.map pieceValues).getD 0 - (a.2.ptype.map pieceValues).getD 0)
    (allSquares.filterMap fun s =>
      match Game.getPiece g s.1 s.2 with
      | some pd =>
        if pd.pcolor = cor && Game.isSquareDangerous g s.1 s.2 then
          some (s, pd)
        else none
      | none => none)

/-- `BotService.findDefenderMoves`: cheapest move landing on the cell. -/
def findDefenderMoves (g : Game) (cor : PColor) (pos : Sq) : Option BotMove :=
  (jsSort pieceCmpVal
    ((botGetValidMoves g cor).filter fun m => m.toSq = pos)).head?

/-- `BotService.findSafeMoveForPiece`: safest non-dangerous move of the
piece itself, else the cheapest defender onto its cell. -/
def findSafeMoveForPiece (g : Game) (cor : PColor) (pos : Sq) : Option BotMove :=
  let safeMoves :=
    jsSort (fun a b => getMoveSafety g cor b - getMoveSafety g cor a)
      ((botGetValidMoves g cor).filter fun m =>
        m.fromSq = pos && !(Game.isSquareDangerous g m.toSq.1 m.toSq.2))
  match safeMoves.head? with
  | some m => some m
  | none => findDefenderMoves g cor pos

/-- `BotService.findPieceRescueMove`. -/
def findPieceRescueMove (g : Game) (cor : PColor) : Option BotMove :=
  let threatenedPieces := findThreatenedPieces g cor
  let rest :=
    let worthRescuing :=
      threatenedPieces.filter fun tp =>
        let pieceValue := tp.2.ptype.map pieceValues
        let hasBetterCapture :=
          ((botGetValidMoves g cor).filter fun m => m.captured.isSome).any
            fun m => gtOneAndHalf (m.captured.map pieceValues) pieceValue
        !hasBetterCapture &&
          geOneAndHalf pieceValue (some (pieceValues .pawn))
    let sorted :=
      jsSort
        (fun a b =>
          (b.2.ptype.map pieceValues).getD 0 - (a.2.ptype.map pieceValues).getD 0)
        worthRescuing
    match (sorted.map fun tp => findSafeMoveForPiece g cor tp.1).find?
        (·.isSome) with
    | some r => r
    | none => none
  match threatenedPieces.find? fun tp => tp.2.ptype = some .queen with
  | some tq =>
    match findSafeMoveForPiece g cor tq.1 with
    | some rescueMove => some rescueMove
    | none => rest
  | none => rest

/-- The `centerSquares` set `{d4, e4, d5, e5}` in grid coordinates. -/
def centerSquares : List Sq := [(4, 3), (4, 4), (3, 3), (3, 4)]

/-- The `developmentSquares` set `{c3, d3, e3, f3, c6, d6, e6, f6}`. -/
def developmentSquares : List Sq :=
  [(5, 2), (5, 3), (5, 4), (5, 5), (2, 2), (2, 3), (2, 4), (2, 5)]

/-- A JavaScript number that may be NaN. -/
abbrev JNum := Option Int

/-- NaN-propagating addition. -/
def jAdd : JNum → JNum → JNum
  | some a, some b => some (a + b)
  | _, _ => none

/-- NaN-propagating subtraction. -/
def jSub : JNum → JNum → JNum
  | some a, some b => some (a - b)
  | _, _ => none

/-- A comparator difference whose NaN result acts as `0` in the sort. -/
def jCmp0 : JNum → JNum → Int
  | some a, some b => a - b
  | _, _ => 0

/-- `BotService.avaliarMovimentoMedio`: the medium-level heuristic score;
NaN (from the absent `move.piece` value) propagates through the dangerous/
defended terms. -/
def avaliarMovimentoMedio (g : Game) (cor : PColor) (m : BotMove) : JNum :=
  let s1 :=
    if m.captured.isSome then
      jAdd (some 0) ((m.captured.map pieceValues).map (· * 10))
    else some 0
  let s2 :=
    if Game.isSquareDangerous g m.toSq.1 m.toSq.2 then
      jSub s1 ((m.pieceT.map pieceValues).map (· * 5))
    else s1
  let s3 :=
    if Game.isSquareDefended g m.toSq.1 m.toSq.2 cor then
      jAdd s2 ((m.pieceT.map pieceValues).map (· * 2))
    else s2
  let s4 := if centerSquares.contains m.toSq then jAdd s3 (some 3) else s3
  let s5 :=
    if isEarlyGame g && developmentSquares.contains m.toSq then
      jAdd s4 (some 2)
    else s4
  if moveGivesCheck g m then jAdd s5 (some 5) else s5

/-- `BotService.fazerMovimentoFacil`: a uniformly random good move
(capture or check), else a uniformly random legal move. -/
def fazerMovimentoFacil (g : Game) (cor : PColor) (rand : Nat) : Option BotMove :=
  let moves := botGetValidMoves g cor
  let goodMoves := moves.filter fun m => m.captured.isSome || moveGivesCheck g m
  if goodMoves.length > 0 then jsPick goodMoves rand else jsPick moves rand

/-- `BotService.fazerMovimentoMedio`: score, sort descending, pick among
the top 3 (`none` models the `TypeError` on an empty move list, which the
caller's catch turns into `null`). -/
def fazerMovimentoMedio (g : Game) (cor : PColor) (rand : Nat) : Option BotMove :=
  let scored := (botGetValidMoves g cor).map fun m => (m, avaliarMovimentoMedio g cor m)
  let sorted := jsSort (fun a b => jCmp0 b.2 a.2) scored
  let topMoves := sorted.take 3
  (jsPick topMoves rand).map (·.1)

/-- JavaScript numbers extended with the `±Infinity` minimax sentinels. -/
inductive XInt where
  | ninf
  | fin (n : Int)
  | pinf
deriving DecidableEq, Repr

/-- `≤` on extended integers. -/
def XInt.leB : XInt → XInt → Bool
  | .ninf, _ => true
  | _, .pinf => true
  | .fin a, .fin b => a ≤ b
  | _, _ => false

/-- `<` on extended integers. -/
def XInt.ltB (a b : XInt) : Bool := !(XInt.leB b a)

/-- `Math.max`. -/
def XInt.maxB (a b : XInt) : XInt := if XInt.leB a b then b else a

/-- `Math.min`. -/
def XInt.minB (a b : XInt) : XInt := if XInt.leB a b then a else b

/-- Piece-square-table keys: the six piece types plus the endgame king. -/
inductive PstKey where
  | p
  | n
  | b
  | r
  | q
  | k
  | k_e
deriving DecidableEq, Repr

/-- `pieceValues` over table keys (`k_e` scores like the king). -/
def pieceValuesK : PstKey → Int
  | .p => 100
  | .n => 280
  | .b => 320
  | .r => 479
  | .q => 929
  | .k => 60000
  | .k_e => 60000

/-- The table key of a piece type. -/
def pstKeyOf : PType → PstKey
  | .pawn => .p
  | .knight => .n
  | .bishop => .b
  | .rook => .r
  | .queen => .q
  | .king => .k

/-- `BotService.createPSTTables` (the white-side tables `pst_w`). -/
def pstW : PstKey → List (List Int)
  | .p =>
    [[100, 100, 100, 100, 105, 100, 100, 100],
     [78, 83, 86, 73, 102, 82, 85, 90],
     [7, 29, 21, 44, 40, 31, 44, 7],
     [-17, 16, -2, 15, 14, 0, 15, -13],
     [-26, 3, 10, 9, 6, 1, 0, -23],
     [-22, 9, 5, -11, -10, -2, 3, -19],
     [-31, 8, -7, -37, -36, -14, 3, -31],
     [0, 0, 0, 0, 0, 0, 0, 0]]
  | .n =>
    [[-66, -53, -75, -75, -10, -55, -58, -70],
     [-3, -6, 100, -36, 4, 62, -4, -14],
     [10, 67, 1, 74, 73, 27, 62, -2],
     [24, 24, 45, 37, 33, 41, 25, 17],
     [-1, 5, 31, 21, 22, 35, 2, 0],
     [-18, 10, 13, 22, 18, 15, 11, -14],
     [-23, -15, 2, 0, 2, 0, -23, -20],
     [-74, -23, -26, -24, -19, -35, -22, -69]]
  | .b =>
    [[-59, -78, -82, -76, -23, -107, -37, -50],
     [-11, 20, 35, -42, -39, 31, 2, -22],
     [-9, 39, -32, 41, 52, -10, 28, -14],
     [25, 17, 20, 34, 26, 25, 15, 10],
     [13, 10, 17, 23, 17, 16, 0, 7],
     [14, 25, 24, 15, 8, 25, 20, 15],
     [19, 20, 11, 6, 7, 6, 20, 16],
     [-7, 2, -15, -12, -14, -15, -10, -10]]
  | .r =>
    [[35, 29, 33, 4, 37, 33, 56, 50],
     [55, 29, 56, 67, 55, 62, 34, 60],
     [19, 35, 28, 33, 45, 27, 25, 15],
     [0, 5, 16, 13, 18, -4, -9, -6],
     [-28, -35, -16, -21, -13, -29, -46, -30],
     [-42, -28, -42, -25, -25, -35, -26, -46],
     [-53, -38, -31, -26, -29, -43, -44, -53],
     [-30, -24, -18, 5, -2, -18, -31, -32]]
  | .q =>
    [[6, 1, -8, -104, 69, 24, 88, 26],
     [14, 32, 60, -10, 20, 76, 57, 24],
     [-2, 43, 32, 60, 72, 63, 43, 2],
     [1, -16, 22, 17, 25, 20, -13, -6],
     [-14, -15, -2, -5, -1, -10, -20, -22],
     [-30, -6, -13, -11, -16, -11, -16, -27],
     [-36, -18, 0, -19, -15, -15, -21, -38],
     [-39, -30, -31, -13, -31, -36, -34, -42]]
  | .k =>
    [[4, 54, 47, -99, -99, 60, 83, -62],
     [-32, 10, 55, 56, 56, 55, 10, 3],
     [-62, 12, -57, 44, -67, 28, 37, -31],
     [-55, 50, 11, -4, -19, 13, 0, -49],
     [-55, -43, -52, -28, -51, -47, -8, -50],
     [-47, -42, -43, -79, -64, -32, -29, -32],
     [-4, 3, -14, -50, -57, -18, 13, 4],
     [17, 30, -3, -14, 6, -1, 40, 18]]
  | .k_e =>
    [[-50, -40, -30, -20, -20, -30, -40, -50],
     [-30, -20, -10, 0, 0, -10, -20, -30],
     [-30, -10, 20, 30, 30, 20, -10, -30],
     [-30, -10, 30, 40, 40, 30, -10, -30],
     [-30, -10, 30, 40, 40, 30, -10, -30],
     [-30, -10, 20, 30, 30, 20, -10, -30],
     [-30, -30, 0, 0, 0, 0, -30, -30],
     [-50, -30, -30, -30, -30, -30, -30, -50]]

/-- `BotService.createOpponentPSTTables` (`pst_b`): each white table with
its rows reversed (`slice().reverse()`). -/
def pstB (key : PstKey) : List (List Int) :=
  (pstW key).reverse

/-- `BotService.getPSTValue`: `pstSelf = {w: pst_w, b: pst_b}`,
`pstOpponent = {w: pst_b, b: pst_w}`, indexed by the bot color `cor`;
out-of-range reads give `0` (`|| 0`). -/
def getPSTValue (cor : PColor) (key : PstKey) (pos : Sq) (isSelf : Bool) : Int :=
  let table :=
    if isSelf then
      match cor with
      | .white => pstW key
      | .black => pstB key
    else
      match cor with
      | .white => pstB key
      | .black => pstW key
  (table.getD pos.1 []).getD pos.2 0

/-- Does the provider's SAN for the move contain `'+'`?  (`'+'` marks
check; mate is written `'#'` instead.) -/
def sanIncludesPlus (st : ChessState) (m : EMove) : Bool :=
  let st' := applyEMove st m
  inCheck st'.board st'.turn && !(isCheckmate st')

/-- `BotService.evaluateMove`: the running minimax score update.  `cor` is
the bot color (`this.cor`, selecting the PST side) and `endG`/`midG` are
`this.isEndGame()`/`this.isMidGame()` of the root game, as in the source. -/
def evaluateMove (cor : PColor) (endG midG : Bool) (st : ChessState) (m : EMove)
    (prevSum : Int) (color : PColor) : Int :=
  let fromPos := m.fromSq
  let toPos := m.toSq
  let pieceKey := if endG && m.piece = .king then PstKey.k_e else pstKeyOf m.piece
  let s1 :=
    match m.captured with
    | some cap =>
      let capturedValue :=
        pieceValues cap + getPSTValue cor (pstKeyOf cap) toPos (m.color != color)
      prevSum + (if m.color = color then capturedValue else -capturedValue)
    | none => prevSum
  let s2 :=
    if m.promo then
      let pieceValue :=
        pieceValuesK pieceKey + getPSTValue cor pieceKey fromPos (m.color == color)
      let promoValue :=
        pieceValues .queen + getPSTValue cor (pstKeyOf .queen) toPos (m.color == color)
      s1 + (if m.color = color then promoValue - pieceValue else pieceValue - promoValue)
    else
      let pstDiff :=
        getPSTValue cor pieceKey toPos (m.color == color) -
          getPSTValue cor pieceKey fromPos (m.color == color)
      s1 + (if m.color = color then pstDiff else -pstDiff)
  let s3 :=
    if midG then
      s2 + (if centerSquares.contains toPos then (if m.color = color then 20 else -20) else 0)
        + (if developmentSquares.contains toPos then (if m.color = color then 15 else -15) else 0)
    else s2
  if sanIncludesPlus st m then s3 + (if m.color = color then 10 else -10) else s3

/-- `BotService.minimax`: depth-bounded alpha-beta search.  The
`Math.random()` move shuffle is modelled by the `shuffle` parameter; every
generated verbose move applies successfully, so the `continue` branch on a
failed `game.move` is dead. -/
def minimax (shuffle : List EMove → List EMove) (cor : PColor) (endG midG : Bool) :
    Nat → ChessState → XInt → XInt → Bool → Int → PColor → Option EMove × XInt
  | 0, _, _, _, _, sum, _ => (none, .fin sum)
  | d + 1, st, alpha0, beta0, isMaximizing, sum, color =>
    let children := shuffle (legalMovesAll st)
    if children.isEmpty then (none, .fin sum)
    else
      let step := fun (acc : Option EMove × XInt × XInt × XInt × Bool) (child : EMove) =>
        let (bm, bv, alpha, beta, done) := acc
        if done then acc
        else
          let newSum := evaluateMove cor endG midG st child sum color
          let value :=
            (minimax shuffle cor endG midG d (applyEMove st child) alpha beta
              (!isMaximizing) newSum color).2
          let keep : Bool := if isMaximizing then XInt.ltB bv value else XInt.ltB value bv
          let bm' := if keep then some child else bm
          let bv' := if keep then value else bv
          let alpha' := if isMaximizing then XInt.maxB alpha bv' else alpha
          let beta' := if isMaximizing then beta else XInt.minB beta bv'
          (bm', bv', alpha', beta', XInt.leB beta' alpha')
      let r :=
        children.foldl step
          (none, (if isMaximizing then XInt.ninf else XInt.pinf), alpha0, beta0, false)
      (r.1, r.2.1)

/-- `BotService.fazerMovimentoDificil`: minimax at depth 4 in the endgame,
3 otherwise; the returned record carries `promotion: 'q'` when the chosen
move promotes; fall back to the medium level when the search has no move. -/
def fazerMovimentoDificil (shuffle : List EMove → List EMove) (g : Game)
    (cor : PColor) (rand : Nat) : Option BotMove :=
  let depth := if isEndGame g then 4 else 3
  let r := minimax shuffle cor (isEndGame g) (isMidGame g) depth g.chess
    .ninf .pinf true 0 cor
  match r.1 with
  | some m =>
    some
      { fromSq := m.fromSq
        toSq := m.toSq
        pieceT := none
        captured := none
        promotion := if m.promo then some .queen else none }
  | none => fazerMovimentoMedio g cor rand

/-- Tiers 3–6 of `BotService.selectMoveByLevel` (after the mate and
high-value-capture tiers): king defense, general safe capture, piece
rescue, then level dispatch. -/
def selectTail (shuffle : List EMove → List EMove) (rand : Nat) (g : Game)
    (nivel : BotLevel) (cor : PColor) : Option BotMove :=
  match getKingDefenseMove g cor with
  | some kingDefenseMove => some kingDefenseMove
  | none =>
    match findSafeCapture g cor with
    | some safeCapture => some safeCapture
    | none =>
      match findPieceRescueMove g cor with
      | some pieceRescueMove => some pieceRescueMove
      | none =>
        match nivel with
        | .facil => fazerMovimentoFacil g cor rand
        | .medio => fazerMovimentoMedio g cor rand
        | .dificil => fazerMovimentoDificil shuffle g cor rand

/-- `BotService.selectMoveByLevel`: a mating move first; then the
highest-valued `≥ rook` capture, returned only if its own destination is
not dangerous (otherwise fall through); then the remaining tiers. -/
def selectMoveByLevel (shuffle : List EMove → List EMove) (rand : Nat)
    (g : Game) (nivel : BotLevel) (cor : PColor) : Option BotMove :=
  match findCheckmateMove g cor with
  | some mateMove => some mateMove
  | none =>
    let valuableCapture :=
      (jsSort (fun a b => capturedValueD b - capturedValueD a)
        ((botGetValidMoves g cor).filter fun m =>
          match m.captured with
          | some c => decide (pieceValues c ≥ pieceValues .rook)
          | none => false)).head?
    match valuableCapture with
    | some vc =>
      if !(Game.isSquareDangerous g vc.toSq.1 vc.toSq.2) then some vc
      else selectTail shuffle rand g nivel cor
    | none => selectTail shuffle rand g nivel cor

/-- `BotService.deveJogar`: it is the bot's turn and no computation is in
flight. -/
def deveJogar (g : Game) (cor : PColor) (isProcessing : Bool) : Bool :=
  Game.getCurrentTurn g = cor && !isProcessing

/-- `BotService.fazerMovimento`: guard with `deveJogar`, then select (the
artificial delay and the recent-move log do not affect the result). -/
def fazerMovimento (shuffle : List EMove → List EMove) (rand : Nat) (g : Game)
    (nivel : BotLevel) (cor : PColor) (isProcessing : Bool) : Option BotMove :=
  if !(deveJogar g cor isProcessing) then none
  else selectMoveByLevel shuffle rand g nivel cor

end BotService

/-! ## Concrete states for witnesses and counterexamples -/

/-- Build a board from an explicit placement list. -/
def mkBoard (l : List (Sq × CPiece)) : Board :=
  (List.range 64).map fun n => (l.find? fun e => e.1.1 * 8 + e.1.2 = n).map (·.2)

/-- A freshly constructed `Game` (constructor defaults) holding the given
provider state. -/
def mkGame (st : ChessState) : Game :=
  { chess := st
    redoStack := []
    dangerZones := []
    dangerZoneTimers := []
    nextTimerId := 1
    lastDangerSide := .black
    dangerZoneQueue := []
    winner := none
    hasKingCaughtCallback := false
    callbackCalls := []
    humanColor := none
    settings := none }

/-- A single-player game (human plays black) in the starting position with
a danger zone and its pending timer on the black king's cell `e8 = (0,4)`. -/
def kingZoneGame : Game :=
  { mkGame initialChess with
    humanColor := some .black
    hasKingCaughtCallback := true
    dangerZones := [⟨⟨0, 4⟩, 0, true⟩]
    dangerZoneTimers := [(⟨0, 4⟩, 1)]
    nextTimerId := 2 }

/-- The starting position with a danger zone and its pending timer on the
white pawn's cell `e2 = (6,4)`. -/
def pawnZoneGame : Game :=
  { mkGame initialChess with
    dangerZones := [⟨⟨6, 4⟩, 0, true⟩]
    dangerZoneTimers := [(⟨6, 4⟩, 1)]
    nextTimerId := 2 }

/-- A back-rank mate-in-one for the bot (white): white Ra1, Kg1; black Kg8
with pawns f7, g7, h7; white to move, `Ra8#` available. -/
def mateGame : Game :=
  mkGame ⟨mkBoard
    [((0, 6), ⟨.king, .black⟩), ((1, 5), ⟨.pawn, .black⟩),
     ((1, 6), ⟨.pawn, .black⟩), ((1, 7), ⟨.pawn, .black⟩),
     ((7, 0), ⟨.rook, .white⟩), ((7, 6), ⟨.king, .white⟩)], .white⟩

/-- The mating move `Ra1–a8` as `BotService.getValidMoves` records it. -/
def mateMoveRa8 : BotService.BotMove :=
  { fromSq := (7, 0), toSq := (0, 0), pieceT := none, captured := none,
    promotion := none }

/-- A position (bot plays black, black to move, no danger zones) where the
black rook on a8 can capture the undefended white rook on a5 — a capture of
rook value landing on a non-dangerous square — and no black move mates or
gives check: black Ke8, Ra8, pawns b7 c7 f7; white Ke1, Ra5. -/
def c5Game : Game :=
  mkGame ⟨mkBoard
    [((0, 4), ⟨.king, .black⟩), ((0, 0), ⟨.rook, .black⟩),
     ((1, 1), ⟨.pawn, .black⟩), ((1, 2), ⟨.pawn, .black⟩),
     ((1, 5), ⟨.pawn, .black⟩), ((7, 4), ⟨.king, .white⟩),
     ((3, 0), ⟨.rook, .white⟩)], .black⟩

/-- The quiet move `Ra8–a7` the easy level picks first in `c5Game`. -/
def c5Quiet : BotService.BotMove :=
  { fromSq := (0, 0), toSq := (1, 0), pieceT := none, captured := none,
    promotion := none }

/-- A one-cell heap whose internal danger-zone array holds a zone at
`(1, 2)`. -/
def zoneHeap0 : ZoneHeap := ⟨[[⟨⟨1, 2⟩, 0, true⟩]]⟩

/-! ## Theorems -/

/-- A `jsIndexOf` result other than `-1` is nonnegative. -/
theorem jsIndexOf_nonneg (l : List Char) (c : Char) :
    jsIndexOf l c ≠ -1 → 0 ≤ jsIndexOf l c := by
  induction l with
  | nil => intro h; simp [jsIndexOf] at h
  | cons x xs ih =>
    intro h
    rw [jsIndexOf] at h ⊢
    by_cases hx : x = c
    · simp [hx]
    · simp only [if_neg hx] at h ⊢
      by_cases hr : jsIndexOf xs c = -1
      · simp [hr] at h
      · simp only [if_neg hr]
        have := ih hr
        omega

/-- `jsIndexOf` returns `-1` exactly on absent elements. -/
theorem jsIndexOf_eq_neg_one_iff (l : List Char) (c : Char) :
    jsIndexOf l c = -1 ↔ c ∉ l := by
  induction l with
  | nil => simp [jsIndexOf]
  | cons x xs ih =>
    by_cases hx : x = c
    · simp [jsIndexOf, hx]
    · rw [jsIndexOf]
      simp only [if_neg hx]
      by_cases hr : jsIndexOf xs c = -1
      · simp only [hr, if_pos rfl, List.mem_cons]
        constructor
        · intro _ hmem
          rcases hmem with h | h
          · exact hx h.symm
          · exact (ih.mp hr) h
        · intro _; rfl
      · simp only [if_neg hr, List.mem_cons]
        constructor
        · intro h
          exfalso
          have := jsIndexOf_nonneg xs c hr
          omega
        · intro h
          exfalso
          exact h (Or.inr (not_not.mp (fun hc => hr (ih.mpr hc))))

/-- C1 (code bug in `Game.reset`): after the danger-zone timer on the human
king's cell has declared the opponent winner, `reset()` empties the zone
list and timer map and restores the standard starting position with white
to move — but it does not clear the recorded winner, so `checkGameResult()`
still returns the stale danger-zone winner (`'Brancas'`) instead of the
'none' result (`false`). -/
theorem C1_reset_keeps_stale_winner :
    (Game.dangerZoneTimerFire kingZoneGame ⟨0, 4⟩).winner = some PColor.white ∧
    (Game.reset (Game.dangerZoneTimerFire kingZoneGame ⟨0, 4⟩)).dangerZones = [] ∧
    (Game.reset (Game.dangerZoneTimerFire kingZoneGame ⟨0, 4⟩)).dangerZoneTimers = [] ∧
    (Game.reset (Game.dangerZoneTimerFire kingZoneGame ⟨0, 4⟩)).chess = initialChess ∧
    Game.getCurrentTurn (Game.reset (Game.dangerZoneTimerFire kingZoneGame ⟨0, 4⟩)) =
      PColor.white ∧
    (Game.reset (Game.dangerZoneTimerFire kingZoneGame ⟨0, 4⟩)).winner =
      some PColor.white ∧
    Game.checkGameResult (Game.reset (Game.dangerZoneTimerFire kingZoneGame ⟨0, 4⟩)) =
      Game.GameResult.brancas := by
  decide

/-- C2 (code bug in `Game.removeDangerZone`): removing the danger zone on
the occupied cell `e2 = (6,4)` of the starting position does cancel the
timer and delete the zone record, but — via the `removePieceAt` call on
line 117 — it also removes the white pawn from the board, so the board is
not unchanged. -/
theorem C2_removeDangerZone_mutates_board :
    boardGet pawnZoneGame.chess.board 6 4 = some ⟨.pawn, .white⟩ ∧
    (Game.removeDangerZone pawnZoneGame ⟨6, 4⟩).dangerZones = [] ∧
    (Game.removeDangerZone pawnZoneGame ⟨6, 4⟩).dangerZoneTimers = [] ∧
    boardGet (Game.removeDangerZone pawnZoneGame ⟨6, 4⟩).chess.board 6 4 = none ∧
    (Game.removeDangerZone pawnZoneGame ⟨6, 4⟩).chess.board ≠
      pawnZoneGame.chess.board := by
  decide

/-- C5 counterexample: in `c5Game` the bot (black, easy level) has no
mate-in-one, and a legal capture of a rook (value 479 ≥ rook) landing on a
non-dangerous square is available (`Ra8xa5`), yet move selection returns
the quiet move `Ra8–a7` — not a capture at all (its destination is empty):
the high-value-capture tier never fires because every bot-built move record
carries `captured = null`. -/
theorem C5_counterexample :
    BotService.findCheckmateMove c5Game .black = none ∧
    (∃ em ∈ legalMovesAll c5Game.chess, em.captured = some PType.rook ∧
      Game.isSquareDangerous c5Game em.toSq.1 em.toSq.2 = false) ∧
    BotService.selectMoveByLevel id 0 c5Game .facil .black = some c5Quiet ∧
    c5Quiet.captured = none ∧
    boardGet c5Game.chess.board c5Quiet.toSq.1 c5Quiet.toSq.2 = none := by
  decide

/-- C6: converting a cell to chess notation and back is the identity on all
64 valid cells (row ↦ rank `8 - row`, column ↦ file `'a' + column`), and
the notation map is injective there — the conversion is a bijection onto
its 64 notation strings. -/
theorem C6_roundtrip :
    (∀ i : Nat, i < 8 → ∀ j : Nat, j < 8 →
      squareToCoords (coordsToSquare i j) = ⟨some (i : Int), (j : Int)⟩) ∧
    (∀ i : Nat, i < 8 → ∀ j : Nat, j < 8 → ∀ k : Nat, k < 8 → ∀ l : Nat, l < 8 →
      coordsToSquare i j = coordsToSquare k l → i = k ∧ j = l) := by
  have hrt : ∀ i : Nat, i < 8 → ∀ j : Nat, j < 8 →
      squareToCoords (coordsToSquare i j) = ⟨some (i : Int), (j : Int)⟩ := by
    decide
  refine ⟨hrt, fun i hi j hj k hk l hl heq => ?_⟩
  have h1 := hrt i hi j hj
  have h2 := hrt k hk l hl
  rw [heq, h2] at h1
  have hi' : ((k : Int) : Option Int) = some (i : Int) := by
    exact congrArg CellPosJS.i h1
  have hj' : ((l : Int)) = (j : Int) := congrArg CellPosJS.j h1
  have hik : (k : Int) = (i : Int) := Option.some_inj.mp hi'
  constructor
  · exact (Int.natCast_inj.mp hik).symm
  · exact (Int.natCast_inj.mp hj').symm

/-- C6 witness: the round trip at cell `(6, 4)` (square `e2`). -/
theorem C6_roundtrip_witness :
    squareToCoords (coordsToSquare 6 4) = ⟨some 6, 4⟩ :=
  C6_roundtrip.1 6 (by decide) 4 (by decide)

/-- C7 counterexample: the malformed square string `"e1x"` (wrong length)
does not make `squareToCoords` fail — the source contains no validation or
throw — it returns the ordinary in-range cell `(7, 4)`, indistinguishable
from the result for the well-formed `"e1"`. -/
theorem C7_counterexample :
    ¬("e1x".length = 2) ∧
    squareToCoords "e1x" = ⟨some 7, 4⟩ ∧
    squareToCoords "e1x" = squareToCoords "e1" := by
  decide

/-- C7 amended: `squareToCoords` performs no validation and never signals
an error — it is a total function into ordinary `{i, j}` objects.  `j` is
`-1` exactly when the first character is not a file letter, `i` is NaN
exactly when the second character is missing or not a digit, and extra
characters are ignored, so some malformed strings (`"e1x"`) even land on
in-range cells. -/
theorem C7_amended_no_validation :
    (∀ s : String, (squareToCoords s).j = -1 ↔
      ∀ c, s.data.get? 0 = some c → c ∉ filesList) ∧
    (∀ s : String, (squareToCoords s).i = none ↔
      ∀ c, s.data.get? 1 = some c → c.isDigit = false) ∧
    squareToCoords "z9" = ⟨some (-1), -1⟩ ∧
    squareToCoords "e1x" = ⟨some 7, 4⟩ := by
  refine ⟨?_, ?_, by decide, by decide⟩
  · intro s
    cases h : s.data.get? 0 with
    | none =>
      simp only [squareToCoords, h]
      constructor
      · intro _ c hc
        simp at hc
      · intro _
        trivial
    | some c =>
      simp only [squareToCoords, h]
      rw [jsIndexOf_eq_neg_one_iff]
      constructor
      · intro hnot c' hc'
        cases Option.some_inj.mp hc'
        exact hnot
      · intro hall
        exact hall c rfl
  · intro s
    cases h : s.data.get? 1 with
    | none =>
      simp only [squareToCoords, h, jsParseIntChar, Option.map_none']
      constructor
      · intro _ c hc
        simp at hc
      · intro _
        trivial
    | some c =>
      by_cases hd : c.isDigit
      · simp only [squareToCoords, h, jsParseIntChar, if_pos hd, Option.map_some']
        constructor
        · intro hcon
          exact absurd hcon (by simp)
        · intro hall
          exact absurd (hall c rfl) (by simp [hd])
      · simp only [squareToCoords, h, jsParseIntChar, if_neg hd, Option.map_none']
        constructor
        · intro _ c' hc'
          cases Option.some_inj.mp hc'
          simpa using hd
        · intro _
          trivial

/-- C7 amended witness: at `"q5"` (file letter outside a–h) the mapper
returns `j = -1` rather than raising. -/
theorem C7_amended_witness :
    (squareToCoords "q5").j = -1 :=
  (C7_amended_no_validation.1 "q5").mpr (fun c hc => by
    have hq : c = 'q' := by
      have h : ("q5".data.get? 0) = some 'q' := rfl
      rw [h] at hc
      exact (Option.some_inj.mp hc).symm
    rw [hq]
    decide)

/-- Every `PieceData` built by `Game.getPiece` has no `type` field. -/
theorem getPiece_ptype_none (g : Game) (i j : Nat) :
    ∀ pd, Game.getPiece g i j = some pd → pd.ptype = none := by
  intro pd hp
  unfold Game.getPiece at hp
  cases hb : boardGet g.chess.board i j with
  | none => rw [hb] at hp; simp at hp
  | some p =>
    rw [hb] at hp
    simp only [Option.map_some'] at hp
    cases Option.some_inj.mp hp
    rfl

/-- `BotService.getCapturedPiece` always returns `null`: the `type` it
forwards is absent from `Game.getPiece` results. -/
theorem getCapturedPiece_eq_none (g : Game) (cor : PColor) (i j : Nat) :
    BotService.getCapturedPiece g cor i j = none := by
  unfold BotService.getCapturedPiece
  split
  next pd hq =>
    split
    next => exact getPiece_ptype_none g i j pd hq
    next => rfl
  next => rfl

/-- Every move record the bot builds carries `captured = null` and
`piece = undefined`. -/
theorem botMove_fields_none (g : Game) (cor : PColor) :
    ∀ m ∈ BotService.botGetValidMoves g cor, m.captured = none ∧ m.pieceT = none := by
  intro m hm
  unfold BotService.botGetValidMoves at hm
  rw [List.mem_flatMap] at hm
  obtain ⟨s, _, hms⟩ := hm
  split at hms
  next pd hp =>
    split at hms
    next =>
      rw [List.mem_map] at hms
      obtain ⟨t, _, hmt⟩ := hms
      rw [← hmt]
      exact ⟨getCapturedPiece_eq_none g cor t.1 t.2, getPiece_ptype_none g s.1 s.2 pd hp⟩
    next => simp at hms
  next => simp at hms

/-- C4: whenever the bot has a legal move that immediately checkmates,
`selectMoveByLevel` returns a checkmating move at every difficulty level,
for every random draw and shuffle — the mate-in-one tier runs before the
capture tiers and before level dispatch. -/
theorem C4_mate_in_one (shuffle : List EMove → List EMove) (rand : Nat)
    (g : Game) (nivel : BotLevel) (cor : PColor)
    (h : ∃ m ∈ BotService.botGetValidMoves g cor,
      BotService.isCheckmateMove g m = true) :
    ∃ m', BotService.selectMoveByLevel shuffle rand g nivel cor = some m' ∧
      BotService.isCheckmateMove g m' = true := by
  obtain ⟨m, hm, hmate⟩ := h
  have hsome : (BotService.findCheckmateMove g cor).isSome := by
    unfold BotService.findCheckmateMove
    rw [List.find?_isSome]
    exact ⟨m, hm, hmate⟩
  obtain ⟨m', hm'⟩ := Option.isSome_iff_exists.mp hsome
  refine ⟨m', ?_, ?_⟩
  · unfold BotService.selectMoveByLevel
    rw [hm']
  · have := List.find?_some (p := fun m => BotService.isCheckmateMove g m)
      (l := BotService.botGetValidMoves g cor) hm'
    exact this

/-- C4 witness: in the back-rank position `mateGame`, `Ra1–a8` mates and is
returned at the easy level. -/
theorem C4_mate_in_one_witness :
    ∃ m', BotService.selectMoveByLevel id 0 mateGame .facil .white = some m' ∧
      BotService.isCheckmateMove mateGame m' = true :=
  C4_mate_in_one id 0 mateGame .facil .white ⟨mateMoveRa8, by decide, by decide⟩

/-- C5 amended: the high-value-capture tier is inert.  `Game.getPiece`
omits the piece `type`, so every bot-built move record has
`captured = null` (and `piece = undefined`); the `≥ rook` capture filter of
tier 2 therefore matches nothing in any position, and the tier never
returns a move — selection falls through to the later tiers and the level
dispatch. -/
theorem C5_amended_tier2_inert (g : Game) (cor : PColor) :
    (∀ m ∈ BotService.botGetValidMoves g cor,
      m.captured = none ∧ m.pieceT = none) ∧
    (BotService.botGetValidMoves g cor).filter (fun m =>
      match m.captured with
      | some c => decide (BotService.pieceValues c ≥ BotService.pieceValues .rook)
      | none => false) = [] := by
  refine ⟨botMove_fields_none g cor, ?_⟩
  rw [List.filter_eq_nil_iff]
  intro m hm
  rw [(botMove_fields_none g cor m hm).1]
  simp

/-- C5 amended witness: in `c5Game` (safe rook capture available) the
tier-2 candidate list is empty. -/
theorem C5_amended_witness :
    (BotService.botGetValidMoves c5Game .black).filter (fun m =>
      match m.captured with
      | some c => decide (BotService.pieceValues c ≥ BotService.pieceValues .rook)
      | none => false) = [] :=
  (C5_amended_tier2_inert c5Game .black).2

/-- The opposite color is never the color itself. -/
theorem PColor.other_ne_self : ∀ c : PColor, PColor.other c ≠ c := by
  intro c
  cases c <;> intro h <;> exact PColor.noConfusion h

/-- A successful provider move flips the side to move. -/
theorem chessMoveCoords_turn (st : ChessState) (fi fj ti tj : Nat)
    (m : EMove) (st' : ChessState)
    (h : chessMoveCoords st fi fj ti tj = some (m, st')) :
    st'.turn = st.turn.other := by
  unfold chessMoveCoords at h
  split at h
  next => simp at h
  next p hb =>
    split at h
    next hl =>
      simp only [Option.some_inj, Prod.mk.injEq] at h
      rw [← h.2]
      rfl
    next hl => simp at h

/-- A failed provider move leaves the state unchanged (the wrapper catches
the throw and returns `false`). -/
theorem C9_turn_alternation (g : Game) (xfrom xto : CellPos) :
    ((Game.movePiece g xfrom xto).1 = true →
      Game.getCurrentTurn (Game.movePiece g xfrom xto).2 ≠ Game.getCurrentTurn g) ∧
    ((Game.movePiece g xfrom xto).1 = false →
      (Game.movePiece g xfrom xto).2 = g) := by
  unfold Game.movePiece
  cases h : chessMoveCoords g.chess xfrom.i xfrom.j xto.i xto.j with
  | none =>
    exact ⟨fun hc => Bool.noConfusion hc, fun _ => rfl⟩
  | some pr =>
    obtain ⟨m, st'⟩ := pr
    have ht := chessMoveCoords_turn g.chess xfrom.i xfrom.j xto.i xto.j m st' h
    refine ⟨fun _ => ?_, fun hc => Bool.noConfusion hc⟩
    show st'.turn ≠ g.chess.turn
    rw [ht]
    exact PColor.other_ne_self g.chess.turn

/-- C9 witness: the opening move `e2–e4` succeeds on the fresh game and
flips the turn. -/
theorem C9_turn_alternation_witness :
    Game.getCurrentTurn (Game.movePiece (mkGame initialChess) ⟨6, 4⟩ ⟨4, 4⟩).2 ≠
      Game.getCurrentTurn (mkGame initialChess) :=
  (C9_turn_alternation (mkGame initialChess) ⟨6, 4⟩ ⟨4, 4⟩).1 (by decide)

/-- C10: `getDangerZones` returns a fresh copy — the allocated array holds
the same zone records, and overwriting it with arbitrary contents changes
neither the internal zone array nor any later `isSquareDangerous` answer. -/
theorem C10_getDangerZones_fresh (h : ZoneHeap) (r : Nat)
    (hr : r < h.cells.length) (v : List DangerZone) (i j : Nat) :
    ZoneHeap.readRef (getDangerZonesAlloc h r).1 (getDangerZonesAlloc h r).2 =
      ZoneHeap.readRef h r ∧
    ZoneHeap.readRef
        (ZoneHeap.writeRef (getDangerZonesAlloc h r).1 (getDangerZonesAlloc h r).2 v)
        r =
      ZoneHeap.readRef h r ∧
    isSquareDangerousRef
        (ZoneHeap.writeRef (getDangerZonesAlloc h r).1 (getDangerZonesAlloc h r).2 v)
        r i j =
      isSquareDangerousRef h r i j := by
  have hne : h.cells.length ≠ r := Nat.ne_of_gt hr
  have hread :
      ZoneHeap.readRef
        (ZoneHeap.writeRef (getDangerZonesAlloc h r).1 (getDangerZonesAlloc h r).2 v)
        r = ZoneHeap.readRef h r := by
    unfold getDangerZonesAlloc ZoneHeap.writeRef ZoneHeap.readRef
    simp only [List.getD_eq_getElem?_getD]
    rw [List.getElem?_set_ne hne, List.getElem?_append_left hr]
  refine ⟨?_, hread, ?_⟩
  · unfold getDangerZonesAlloc ZoneHeap.readRef
    simp only [List.getD_eq_getElem?_getD]
    rw [List.getElem?_append_right (Nat.le_refl _)]
    simp
  · unfold isSquareDangerousRef
    rw [hread]

/-- C10 witness: at the one-cell heap `zoneHeap0`, clearing the returned
copy leaves `isSquareDangerous (1, 2)` unchanged. -/
theorem C10_getDangerZones_fresh_witness :
    isSquareDangerousRef
        (ZoneHeap.writeRef (getDangerZonesAlloc zoneHeap0 0).1
          (getDangerZonesAlloc zoneHeap0 0).2 [])
        0 1 2 =
      isSquareDangerousRef zoneHeap0 0 1 2 :=
  (C10_getDangerZones_fresh zoneHeap0 0 (by decide) [] 1 2).2.2

/-- `addDangerZone` is the identity when danger zones are disabled. -/
theorem addDangerZone_disabled (g : Game) (pos : CellPos) (now : Nat)
    (h : Game.areDangerZonesEnabled g = false) :
    Game.addDangerZone g pos now = g := by
  simp [Game.addDangerZone, h]

/-- `addDangerZone` is the identity when a zone already sits at the cell. -/
theorem addDangerZone_already (g : Game) (pos : CellPos) (now : Nat)
    (h : g.dangerZones.any (fun z => z.position = pos) = true) :
    Game.addDangerZone g pos now = g := by
  simp [Game.addDangerZone, h]

/-- `addDangerZone` on an enabled game with no zone at the cell pushes
exactly one record and one timer entry. -/
theorem addDangerZone_new (g : Game) (pos : CellPos) (now : Nat)
    (he : Game.areDangerZonesEnabled g = true)
    (hz : g.dangerZones.any (fun z => z.position = pos) = false) :
    Game.addDangerZone g pos now =
      { g with
        dangerZones := g.dangerZones ++ [⟨pos, now, true⟩]
        dangerZoneTimers :=
          if g.dangerZoneTimers.any (fun e => e.1 = pos) then
            g.dangerZoneTimers.map fun e =>
              if e.1 = pos then (pos, g.nextTimerId) else e
          else g.dangerZoneTimers ++ [(pos, g.nextTimerId)]
        nextTimerId := g.nextTimerId + 1 } := by
  simp [Game.addDangerZone, he, hz]

/-- C8: `addDangerZone` is guarded and idempotent per cell — a no-op when
danger zones are disabled or a zone already exists at the cell; otherwise
it appends exactly one zone record; a second call before expiry changes
nothing; and it preserves the at-most-one-zone-per-position invariant. -/
theorem C8_addDangerZone_idempotent (g : Game) (pos : CellPos) (now now' : Nat) :
    (Game.areDangerZonesEnabled g = false → Game.addDangerZone g pos now = g) ∧
    (g.dangerZones.any (fun z => z.position = pos) = true →
      Game.addDangerZone g pos now = g) ∧
    (Game.areDangerZonesEnabled g = true →
      g.dangerZones.any (fun z => z.position = pos) = false →
      (Game.addDangerZone g pos now).dangerZones =
        g.dangerZones ++ [⟨pos, now, true⟩]) ∧
    Game.addDangerZone (Game.addDangerZone g pos now) pos now' =
      Game.addDangerZone g pos now ∧
    ((∀ q : CellPos,
        (g.dangerZones.filter (fun z => z.position = q)).length ≤ 1) →
      ∀ q : CellPos,
        ((Game.addDangerZone g pos now).dangerZones.filter
          (fun z => z.position = q)).length ≤ 1) := by
  by_cases he : Game.areDangerZonesEnabled g = true
  · by_cases hz : g.dangerZones.any (fun z => z.position = pos) = true
    · have h0 := addDangerZone_already g pos now hz
      refine ⟨fun hf => ?_, fun _ => h0, fun _ hfz => ?_, ?_, fun hinv q => ?_⟩
      · rw [he] at hf; exact Bool.noConfusion hf
      · rw [hfz] at hz; exact Bool.noConfusion hz
      · rw [h0]; exact addDangerZone_already g pos now' hz
      · rw [h0]; exact hinv q
    · have hz' : g.dangerZones.any (fun z => z.position = pos) = false :=
        Bool.eq_false_iff.mpr hz
      have h0 := addDangerZone_new g pos now he hz'
      have hzones : (Game.addDangerZone g pos now).dangerZones =
          g.dangerZones ++ [⟨pos, now, true⟩] := by rw [h0]
      refine ⟨fun hf => ?_, fun ha => ?_, fun _ _ => hzones, ?_, fun hinv q => ?_⟩
      · rw [he] at hf; exact Bool.noConfusion hf
      · rw [ha] at hz'; exact Bool.noConfusion hz'
      · refine addDangerZone_already _ pos now' ?_
        rw [hzones]
        simp
      · rw [hzones, List.filter_append]
        by_cases hpq : pos = q
        · have hnil : g.dangerZones.filter (fun z => z.position = q) = [] := by
            rw [List.filter_eq_nil_iff]
            intro z hzm
            have : ¬(z.position = pos) := by
              intro hzp
              have : g.dangerZones.any (fun z => z.position = pos) = true :=
                List.any_eq_true.mpr ⟨z, hzm, by simp [hzp]⟩
              rw [this] at hz'
              exact Bool.noConfusion hz'
            simp only [decide_eq_true_eq]
            rw [← hpq]
            exact this
          rw [hnil, List.nil_append, List.filter_cons, List.filter_nil]
          split <;> simp
        · have hnil : ([(⟨pos, now, true⟩ : DangerZone)].filter
              (fun z => z.position = q)) = [] := by
            simp [hpq]
          rw [hnil, List.append_nil]
          exact hinv q
  · have he' : Game.areDangerZonesEnabled g = false := Bool.eq_false_iff.mpr he
    have h0 := addDangerZone_disabled g pos now he'
    refine ⟨fun _ => h0, fun _ => h0, fun hf _ => ?_, ?_, fun hinv q => ?_⟩
    · rw [hf] at he'; exact Bool.noConfusion he'
    · rw [h0]; exact addDangerZone_disabled g pos now' he'
    · rw [h0]; exact hinv q

/-- C8 witness: adding a zone at `(3, 3)` to the fresh game appends one
record; the second add is a no-op. -/
theorem C8_addDangerZone_witness :
    (Game.addDangerZone (mkGame initialChess) ⟨3, 3⟩ 5).dangerZones =
      [⟨⟨3, 3⟩, 5, true⟩] :=
  (C8_addDangerZone_idempotent (mkGame initialChess) ⟨3, 3⟩ 5 9).2.2.1
    (by decide) (by decide)

/-- `removePieceAt` refuses on an empty cell. -/
theorem removePieceAt_empty (h : Game) (q : CellPos)
    (hb : boardGet h.chess.board q.i q.j = none) :
    Game.removePieceAt h q = (false, h) := by
  simp [Game.removePieceAt, hb]

/-- `removePieceAt` refuses to remove a king. -/
theorem removePieceAt_king (h : Game) (q : CellPos) (p : CPiece)
    (hb : boardGet h.chess.board q.i q.j = some p) (hk : p.ptype = .king) :
    Game.removePieceAt h q = (false, h) := by
  simp [Game.removePieceAt, hb, hk]

/-- `removePieceAt` removes a non-king occupant when the resulting board
still holds a king of each color. -/
theorem removePieceAt_nonking_valid (h : Game) (q : CellPos) (p : CPiece)
    (hb : boardGet h.chess.board q.i q.j = some p) (hk : ¬(p.ptype = .king))
    (hv : Game.isBoardValid (boardSet h.chess.board q.i q.j none) = true) :
    Game.removePieceAt h q =
      (true,
        { h with chess :=
          { h.chess with board := boardSet h.chess.board q.i q.j none } }) := by
  simp [Game.removePieceAt, hb, hk, hv]

/-- `removePieceAt` refuses a removal that would leave a side kingless. -/
theorem removePieceAt_nonking_invalid (h : Game) (q : CellPos) (p : CPiece)
    (hb : boardGet h.chess.board q.i q.j = some p) (hk : ¬(p.ptype = .king))
    (hv : Game.isBoardValid (boardSet h.chess.board q.i q.j none) = false) :
    Game.removePieceAt h q = (false, h) := by
  simp [Game.removePieceAt, hb, hk, hv]

/-- The state `removePieceAt` returns is the input, possibly with the one
cell cleared. -/
theorem removePieceAt_snd (h : Game) (q : CellPos) :
    (Game.removePieceAt h q).2 = h ∨
    (Game.removePieceAt h q).2 =
      { h with chess :=
        { h.chess with board := boardSet h.chess.board q.i q.j none } } := by
  cases hb : boardGet h.chess.board q.i q.j with
  | none => rw [removePieceAt_empty h q hb]; exact Or.inl rfl
  | some p =>
    by_cases hk : p.ptype = .king
    · rw [removePieceAt_king h q p hb hk]; exact Or.inl rfl
    · cases hv : Game.isBoardValid (boardSet h.chess.board q.i q.j none) with
      | false => rw [removePieceAt_nonking_invalid h q p hb hk hv]; exact Or.inl rfl
      | true => rw [removePieceAt_nonking_valid h q p hb hk hv]; exact Or.inr rfl

/-- `removePieceAt` never touches the danger-zone state, the winner, the
callback log, or the side to move. -/
theorem removePieceAt_frame (h : Game) (q : CellPos) :
    (Game.removePieceAt h q).2.dangerZones = h.dangerZones ∧
    (Game.removePieceAt h q).2.dangerZoneTimers = h.dangerZoneTimers ∧
    (Game.removePieceAt h q).2.winner = h.winner ∧
    (Game.removePieceAt h q).2.callbackCalls = h.callbackCalls ∧
    (Game.removePieceAt h q).2.chess.turn = h.chess.turn := by
  rcases removePieceAt_snd h q with h2 | h2 <;> rw [h2] <;>
    exact ⟨rfl, rfl, rfl, rfl, rfl⟩

/-- After `removeDangerZone` no zone record or timer entry remains at the
cell. -/
theorem removeDangerZone_zones_all (h : Game) (pos : CellPos) :
    ((Game.removeDangerZone h pos).dangerZones.all
      fun z => !(z.position = pos)) = true ∧
    ((Game.removeDangerZone h pos).dangerZoneTimers.all
      fun e => !(e.1 = pos)) = true := by
  have h1 := removePieceAt_frame
    { h with
      dangerZones := h.dangerZones.filter fun z => !(z.position = pos)
      dangerZoneTimers := h.dangerZoneTimers.filter fun e => !(e.1 = pos) } pos
  constructor
  · have hz : (Game.removeDangerZone h pos).dangerZones =
        h.dangerZones.filter fun z => !(z.position = pos) := h1.1
    rw [hz, List.all_eq_true]
    intro z hzm
    exact (List.mem_filter.mp hzm).2
  · have ht : (Game.removeDangerZone h pos).dangerZoneTimers =
        h.dangerZoneTimers.filter fun e => !(e.1 = pos) := h1.2.1
    rw [ht, List.all_eq_true]
    intro e hem
    exact (List.mem_filter.mp hem).2

/-- `removeDangerZone` preserves the winner. -/
theorem removeDangerZone_winner (h : Game) (pos : CellPos) :
    (Game.removeDangerZone h pos).winner = h.winner :=
  (removePieceAt_frame
    { h with
      dangerZones := h.dangerZones.filter fun z => !(z.position = pos)
      dangerZoneTimers := h.dangerZoneTimers.filter fun e => !(e.1 = pos) }
    pos).2.2.1

/-- `removeDangerZone` preserves the callback log. -/
theorem removeDangerZone_callback (h : Game) (pos : CellPos) :
    (Game.removeDangerZone h pos).callbackCalls = h.callbackCalls :=
  (removePieceAt_frame
    { h with
      dangerZones := h.dangerZones.filter fun z => !(z.position = pos)
      dangerZoneTimers := h.dangerZoneTimers.filter fun e => !(e.1 = pos) }
    pos).2.2.2.1

/-- Clearing an occupied cell empties it. -/
theorem boardGet_boardSet_none (b : Board) (i j : Nat) (p : CPiece)
    (hocc : boardGet b i j = some p) :
    boardGet (boardSet b i j none) i j = none := by
  unfold boardGet boardSet at *
  by_cases hij : i < 8 ∧ j < 8
  · rw [if_pos hij] at hocc ⊢
    have hlen : i * 8 + j < b.length := by
      by_contra hge
      push_neg at hge
      rw [List.getD_eq_getElem?_getD, List.getElem?_eq_none hge] at hocc
      simp at hocc
    rw [List.getD_eq_getElem?_getD, List.getElem?_set_self (by simpa using hlen)]
    rfl
  · rw [if_neg hij]

/-- The `removePieceAt` call inside `removeDangerZone` leaves the provider
state unchanged when the cell is empty, holds a king, or the removal would
leave a side kingless. -/
theorem removeDangerZone_chess_unchanged (h : Game) (pos : CellPos)
    (hcase : boardGet h.chess.board pos.i pos.j = none ∨
      (∃ p, boardGet h.chess.board pos.i pos.j = some p ∧ p.ptype = .king) ∨
      (∃ p, boardGet h.chess.board pos.i pos.j = some p ∧ ¬(p.ptype = .king) ∧
        Game.isBoardValid (boardSet h.chess.board pos.i pos.j none) = false)) :
    (Game.removeDangerZone h pos).chess = h.chess := by
  have hgen : ∀ h' : Game,
      boardGet h'.chess.board pos.i pos.j = none ∨
      (∃ p, boardGet h'.chess.board pos.i pos.j = some p ∧ p.ptype = .king) ∨
      (∃ p, boardGet h'.chess.board pos.i pos.j = some p ∧ ¬(p.ptype = .king) ∧
        Game.isBoardValid (boardSet h'.chess.board pos.i pos.j none) = false) →
      (Game.removePieceAt h' pos).2.chess = h'.chess := by
    intro h' hc
    rcases hc with hb | ⟨p, hb, hk⟩ | ⟨p, hb, hk, hv⟩
    · rw [removePieceAt_empty h' pos hb]
    · rw [removePieceAt_king h' pos p hb hk]
    · rw [removePieceAt_nonking_invalid h' pos p hb hk hv]
  exact hgen
    { h with
      dangerZones := h.dangerZones.filter fun z => !(z.position = pos)
      dangerZoneTimers := h.dangerZoneTimers.filter fun e => !(e.1 = pos) }
    hcase

/-- C3: when the 15 s danger-zone expiry task fires it re-reads the
occupant of the cell.  A king of the human-controlled color makes the
opposite color the winner and (when registered) fires the win callback,
with the king left on the board; a non-king occupant is removed, the
removal being refused exactly when it would leave a side without a king;
and in every case the zone record and its pending timer are deleted. -/
theorem C3_danger_expiry (g : Game) (pos : CellPos) :
    ((Game.dangerZoneTimerFire g pos).dangerZones.all
      fun z => !(z.position = pos)) = true ∧
    ((Game.dangerZoneTimerFire g pos).dangerZoneTimers.all
      fun e => !(e.1 = pos)) = true ∧
    (∀ p, boardGet g.chess.board pos.i pos.j = some p → p.ptype = .king →
      Game.isHumanPlayer g p.pcolor = true →
        (Game.dangerZoneTimerFire g pos).winner = some p.pcolor.other ∧
        (g.hasKingCaughtCallback = true →
          (Game.dangerZoneTimerFire g pos).callbackCalls =
            g.callbackCalls ++ [p.pcolor.other]) ∧
        (Game.dangerZoneTimerFire g pos).chess.board = g.chess.board) ∧
    (∀ p, boardGet g.chess.board pos.i pos.j = some p → ¬(p.ptype = .king) →
      (Game.isBoardValid (boardSet g.chess.board pos.i pos.j none) = true →
        (Game.dangerZoneTimerFire g pos).chess.board =
          boardSet g.chess.board pos.i pos.j none) ∧
      (Game.isBoardValid (boardSet g.chess.board pos.i pos.j none) = false →
        (Game.dangerZoneTimerFire g pos).chess.board = g.chess.board)) := by
  refine ⟨(removeDangerZone_zones_all _ pos).1,
    (removeDangerZone_zones_all _ pos).2, ?_, ?_⟩
  · -- human king: winner declared, callback fired, king remains
    intro p hocc hk hh
    have hgt : Game.getPieceTypeAt g pos.i pos.j = some PType.king := by
      unfold Game.getPieceTypeAt
      rw [hocc, Option.map_some', hk]
    have hgp : Game.getPiece g pos.i pos.j =
        some ⟨pieceToId p, p.pcolor, none⟩ := by
      unfold Game.getPiece
      rw [hocc]
      rfl
    have hfire : Game.dangerZoneTimerFire g pos =
        Game.removeDangerZone
          { g with
            winner := some p.pcolor.other
            callbackCalls :=
              if g.hasKingCaughtCallback then g.callbackCalls ++ [p.pcolor.other]
              else g.callbackCalls } pos := by
      unfold Game.dangerZoneTimerFire
      rw [hgt, hgp]
      simp [hh]
    refine ⟨?_, fun hcb => ?_, ?_⟩
    · rw [hfire, removeDangerZone_winner]
    · rw [hfire, removeDangerZone_callback]
      simp [hcb]
    · rw [hfire]
      have := removeDangerZone_chess_unchanged
        { g with
          winner := some p.pcolor.other
          callbackCalls :=
            if g.hasKingCaughtCallback then g.callbackCalls ++ [p.pcolor.other]
            else g.callbackCalls } pos (Or.inr (Or.inl ⟨p, hocc, hk⟩))
      rw [this]
  · -- non-king occupant: removed iff both kings survive
    intro p hocc hk
    have hgt : Game.getPieceTypeAt g pos.i pos.j = some p.ptype := by
      unfold Game.getPieceTypeAt
      rw [hocc]
      rfl
    have hgp : Game.getPiece g pos.i pos.j =
        some ⟨pieceToId p, p.pcolor, none⟩ := by
      unfold Game.getPiece
      rw [hocc]
      rfl
    have hfire : Game.dangerZoneTimerFire g pos =
        Game.removeDangerZone (Game.removePieceAt g pos).2 pos := by
      unfold Game.dangerZoneTimerFire
      rw [hgt, hgp]
      cases hpt : p.ptype with
      | king => exact absurd hpt hk
      | pawn => rfl
      | knight => rfl
      | bishop => rfl
      | rook => rfl
      | queen => rfl
    constructor
    · intro hv
      have hrem := removePieceAt_nonking_valid g pos p hocc hk hv
      rw [hfire, hrem]
      have hempty : boardGet
          ({ g with chess :=
            { g.chess with board := boardSet g.chess.board pos.i pos.j none } } :
              Game).chess.board pos.i pos.j = none :=
        boardGet_boardSet_none g.chess.board pos.i pos.j p hocc
      have := removeDangerZone_chess_unchanged
        { g with chess :=
          { g.chess with board := boardSet g.chess.board pos.i pos.j none } }
        pos (Or.inl hempty)
      rw [this]
    · intro hv
      have hrem := removePieceAt_nonking_invalid g pos p hocc hk hv
      rw [hfire, hrem]
      have := removeDangerZone_chess_unchanged g pos
        (Or.inr (Or.inr ⟨p, hocc, hk, hv⟩))
      rw [this]

/-- C3 witness: in `kingZoneGame` (human plays black, zone on the black
king's cell `e8`) the expiry task declares white the winner, fires the
callback, and leaves the board unchanged. -/
theorem C3_danger_expiry_witness :
    (Game.dangerZoneTimerFire kingZoneGame ⟨0, 4⟩).winner =
      some (PColor.black).other :=
  ((C3_danger_expiry kingZoneGame ⟨0, 4⟩).2.2.1 ⟨.king, .black⟩ (by decide)
    (by decide) (by decide)).1

end TCC
